import Mathlib

/- Shallow embedding of the pairing/link subsystem of the
   droid-tauri-notification-listener repository (src/src-tauri/src/):
   temp_server.rs, android_client.rs, network_utils.rs and the registry
   operations of commands.rs.  Byte streams are modelled as lists of
   characters (the payloads of interest are ASCII), blocking reads as
   total functions on those lists, and the accept loop of the listener as
   a function over an explicit schedule of per-iteration observations. -/

set_option maxRecDepth 8000

/-! ## Basic character and list utilities -/

/-- ASCII whitespace recognizer, modelling Rust char::is_whitespace on the
ASCII inputs considered here. -/
def isWs (c : Char) : Bool := c = ' ' || c = '\t' || c = '\r' || c = '\n'

def trimLeft (l : List Char) : List Char := l.dropWhile isWs

def trimRight (l : List Char) : List Char := (l.reverse.dropWhile isWs).reverse

/-- Model of Rust str::trim (restricted to ASCII whitespace). -/
def rustTrim (l : List Char) : List Char := trimRight (trimLeft l)

/-- Model of Rust str::starts_with. -/
def startsWithL (p l : List Char) : Bool := decide (l.take p.length = p)

/-- Model of Rust str::to_lowercase on ASCII characters. -/
def rustToLower (c : Char) : Char :=
  if 'A' ≤ c ∧ c ≤ 'Z' then Char.ofNat (c.toNat + 32) else c

def lowerLine (l : List Char) : List Char := l.map rustToLower

/-- Model of BufRead::read_line: consumes up to and including the first
newline (or the whole remaining input at end of stream); returns the line
read together with the rest of the stream. -/
def readLine : List Char → List Char × List Char
  | [] => ([], [])
  | c :: rest =>
    if c = '\n' then ([c], rest)
    else
      let pr := readLine rest
      (c :: pr.1, pr.2)

/-- Model of Read::read_exact: succeeds iff at least n bytes remain. -/
def readExact (n : Nat) (l : List Char) : Option (List Char × List Char) :=
  if n ≤ l.length then some (l.take n, l.drop n) else none

/-- Model of Rust str::split at a colon (always yields at least one,
possibly empty, segment). -/
def splitOnColon : List Char → List (List Char)
  | [] => [[]]
  | c :: rest =>
    if c = ':' then [] :: splitOnColon rest
    else
      match splitOnColon rest with
      | s :: ss => (c :: s) :: ss
      | [] => [[c]]

def parseDigitsAux : Nat → List Char → Option Nat
  | acc, [] => some acc
  | acc, c :: rest =>
    if '0' ≤ c ∧ c ≤ '9' then parseDigitsAux (acc * 10 + (c.toNat - '0'.toNat)) rest
    else none

/-- Model of str::parse::<usize> (overflow is not modelled): an optional
leading plus sign followed by one or more ASCII digits. -/
def parseUsize (l : List Char) : Option Nat :=
  match l with
  | [] => none
  | '+' :: rest => if rest.isEmpty then none else parseDigitsAux 0 rest
  | _ => parseDigitsAux 0 l

/-! ## Pairing data and its JSON wire form

`PairingData` is the struct of temp_server.rs.  The source parses it with
serde_json::from_str; serde_json is an external library, so its behaviour
on the `{url, token}` shape is modelled here by an executable parser for
the corresponding JSON subset: a two-member object whose values are
strings without escape sequences or control characters, with arbitrary
surrounding JSON whitespace and the members in either order. -/

structure PairingData where
  url : String
  token : String
deriving DecidableEq, Repr

def skipWs (l : List Char) : List Char := l.dropWhile isWs

def parseStringBody : List Char → Option (List Char × List Char)
  | [] => none
  | c :: rest =>
    if c = '"' then some ([], rest)
    else if c = '\\' then none
    else if c.toNat < 32 then none
    else
      match parseStringBody rest with
      | some pr => some (c :: pr.1, pr.2)
      | none => none

def parseJsonString (l : List Char) : Option (List Char × List Char) :=
  match l with
  | '"' :: rest => parseStringBody rest
  | _ => none

def parseMember (l : List Char) : Option ((List Char × List Char) × List Char) :=
  match parseJsonString (skipWs l) with
  | none => none
  | some kpr =>
    match skipWs kpr.2 with
    | ':' :: r2 =>
      match parseJsonString (skipWs r2) with
      | none => none
      | some vpr => some ((kpr.1, vpr.1), vpr.2)
    | _ => none

/-- Model of serde_json::from_str::<PairingData> on the JSON subset
described above; `none` models a parse error. -/
def parsePairingData (l : List Char) : Option PairingData :=
  match skipWs l with
  | '\x7b' :: r0 =>
    match parseMember r0 with
    | none => none
    | some m1 =>
      match skipWs m1.2 with
      | ',' :: r2 =>
        match parseMember r2 with
        | none => none
        | some m2 =>
          match skipWs m2.2 with
          | '\x7d' :: r4 =>
            if (skipWs r4).isEmpty then
              if m1.1.1 = ("url".toList) ∧ m2.1.1 = ("token".toList) then
                some ⟨m1.1.2.asString, m2.1.2.asString⟩
              else if m1.1.1 = ("token".toList) ∧ m2.1.1 = ("url".toList) then
                some ⟨m2.1.2.asString, m1.1.2.asString⟩
              else none
            else none
          | _ => none
      | _ => none
  | _ => none

/-! ## TempServer (temp_server.rs)

Each accepted connection is a byte stream; `handle_pairing_client` and
`handle_http_post` return the Result of the Rust method together with the
bytes written back to the connection.  Writes are modelled as always
succeeding; a read that cannot fail in the model (read_line at end of
stream returns an empty line) is total. -/

/-- The success body serialized by serde_json (keys in sorted order, as
produced by serde_json::json! without the preserve_order feature). -/
def successJson : List Char :=
  ("\x7b\"message\":\"Pairing successful\",\"success\":true\x7d").toList

/-- The literal 400 response written by handle_http_post. -/
def badRequest400 : List Char :=
  ("HTTP/1.1 400 Bad Request\r\nContent-Length: 0\r\n\r\n").toList

/-- The 200 response written on a successful HTTP pairing. -/
def http200Response : List Char :=
  ("HTTP/1.1 200 OK\r\nContent-Type: application/json\r\nContent-Length: ").toList
  ++ (Nat.repr successJson.length).toList ++ ("\r\n\r\n").toList ++ successJson

/-- True iff the lowercased header line starts with content-length:,
exactly as checked by handle_http_post. -/
def isContentLengthLine (l : List Char) : Bool :=
  startsWithL ("content-length:".toList) (lowerLine l)

/-- One header-line update of the content_length variable in the header
loop of handle_http_post: on a content-length line the value becomes
parse(trim(split-at-colon segment 1)).unwrap_or(0); otherwise it is kept. -/
def headerUpdateCL (cl : Nat) (line : List Char) : Nat :=
  if isContentLengthLine line then
    match (splitOnColon line).get? 1 with
    | some seg => (parseUsize (rustTrim seg)).getD 0
    | none => cl
  else cl

/-- Header loop of handle_http_post, with explicit fuel (each iteration
consumes at least one input character, so the fuel chosen in
`readHeaders` is never exhausted).  Returns the final content_length and
the stream position after the blank line. -/
def readHeadersAux : Nat → Nat → List Char → Nat × List Char
  | 0, cl, input => (cl, input)
  | fuel + 1, cl, input =>
    let pr := readLine input
    if (rustTrim pr.1).isEmpty then (cl, pr.2)
    else readHeadersAux fuel (headerUpdateCL cl pr.1) pr.2

def readHeaders (cl : Nat) (input : List Char) : Nat × List Char :=
  readHeadersAux (input.length + 1) cl input

/-- TempServer::handle_http_post: read headers, reject a missing or zero
Content-Length with a 400 response, read exactly content_length body
bytes, parse them, and answer 200 on success or 400 on a parse error. -/
def handle_http_post (input : List Char) : Except String PairingData × List Char :=
  let hp := readHeaders 0 input
  if hp.1 = 0 then (Except.error ("No content in POST request"), badRequest400)
  else
    match readExact hp.1 hp.2 with
    | none => (Except.error ("Failed to read body"), [])
    | some pr =>
      match parsePairingData pr.1 with
      | none => (Except.error ("Invalid JSON"), badRequest400)
      | some pd => (Except.ok pd, http200Response)

/-- TempServer::handle_pairing_client: read the first line; dispatch to
HTTP mode when it starts with POST /pair or POST /; otherwise parse the
trimmed line as the raw-line payload and acknowledge with one JSON line. -/
def handle_pairing_client (input : List Char) : Except String PairingData × List Char :=
  let pr := readLine input
  if startsWithL ("POST /pair".toList) pr.1 || startsWithL ("POST /".toList) pr.1 then
    handle_http_post pr.2
  else
    match parsePairingData (rustTrim pr.1) with
    | none => (Except.error ("Failed to parse pairing data"), [])
    | some pd => (Except.ok pd, successJson ++ ['\n'])

/-- Outcome of the non-blocking accept call at one iteration of the
wait_for_pairing loop.  A `conn` outcome also records whether the
subsequent set_nonblocking(false) call on the accepted stream succeeds
(that call is fallible in the source and its failure is propagated with
the ? operator). -/
inductive AcceptOutcome where
  | conn (setBlockingOk : Bool) (input : List Char)
  | wouldBlock
  | acceptErr
deriving DecidableEq, Repr

/-- Environment observation for one iteration of the accept loop: the
elapsed milliseconds compared against the timeout, the value read from
the shared running flag, and the accept outcome. -/
structure IterObs where
  elapsedMs : Nat
  running : Bool
  accept : AcceptOutcome
deriving DecidableEq, Repr

/-- True unless the observation is an accepted connection whose switch to
blocking mode fails. -/
def connOk : AcceptOutcome → Bool
  | AcceptOutcome.conn ok _ => ok
  | _ => true

/-- The loop of TempServer::wait_for_pairing over a schedule of
iteration observations.  The result pairs the returned value with the
value of the waiting_for_pairing flag at the moment of return; `none`
means the schedule ended with the loop still polling. -/
def waitLoop (timeoutMs : Nat) : List IterObs → Option (Except String PairingData × Bool)
  | [] => none
  | o :: rest =>
    if o.elapsedMs > timeoutMs then some (Except.error ("Timeout waiting for pairing"), false)
    else if o.running = false then some (Except.error ("Server stopped"), false)
    else
      match o.accept with
      | AcceptOutcome.conn ok input =>
        if ok then some ((handle_pairing_client input).1, false)
        else some (Except.error ("Failed to set stream blocking"), true)
      | AcceptOutcome.wouldBlock => waitLoop timeoutMs rest
      | AcceptOutcome.acceptErr => some (Except.error ("Accept error"), false)

/-- TempServer::wait_for_pairing: sets waiting_for_pairing to true, fails
at once (with the flag still true) when the listener is absent, and
otherwise runs the accept loop. -/
def wait_for_pairing (listenerSome : Bool) (timeoutMs : Nat) (sched : List IterObs) :
    Option (Except String PairingData × Bool) :=
  if listenerSome then waitLoop timeoutMs sched
  else some (Except.error ("Server not initialized"), true)

/-- An idle iteration: not past the timeout, running, no pending
connection (the WouldBlock branch that sleeps 100 ms and retries). -/
def idleObs : IterObs := IterObs.mk 0 true AcceptOutcome.wouldBlock

/-- The fields of the TempServer struct that stop and Drop touch:
presence of the listener socket, the port, and the two shared flags. -/
structure TempServerState where
  listenerSome : Bool
  port : Nat
  running : Bool
  waiting : Bool
deriving DecidableEq, Repr

/-- TempServer::stop: sets running to false; the listener field is not
touched (the source comments that the socket cannot be closed there). -/
def TempServer.stop (s : TempServerState) : TempServerState :=
  { s with running := false }

/-- Drop for TempServer: sets running to false and drops the listener,
releasing the socket. -/
def TempServer.dropServer (s : TempServerState) : TempServerState :=
  { s with running := false, listenerSome := false }

/-! ## AndroidSocketClient (android_client.rs) -/

/-- The AuthResponse wire struct. -/
structure AuthResponse where
  success : Bool
  message : Option String
  token : Option String
  rejected : Option Bool
  requestId : Option String
  pending : Option Bool
deriving DecidableEq, Repr

/-- AndroidSocketClient::request_token over the stream of responses the
device sends back (an exhausted list models a failed blocking read).
The second component counts the blocking reads performed. -/
def request_token (responses : List AuthResponse) : Except String String × Nat :=
  match responses with
  | [] => (Except.error ("Failed to read response"), 1)
  | r :: rest =>
    if r.pending.getD false then
      match rest with
      | [] => (Except.error ("Failed to read response"), 2)
      | r2 :: _ =>
        ((if r2.rejected.getD false then Except.error ("Authorization rejected by user")
          else
            match r2.token with
            | some t => Except.ok t
            | none => Except.error ("No token in authorization response")), 2)
    else
      ((match r.token with
        | some t => Except.ok t
        | none => Except.error (r.message.getD ("Failed to get token"))), 1)

/-! ## Port utilities (network_utils.rs)

The operating system's current availability of each port is an
environment parameter `avail`. `find_available_port` computes
start_port + 100 in u16 arithmetic; in a debug build the overflowing
addition panics, modelled by the `panicked` result. -/

inductive U16RunResult (α : Type) where
  | ok (val : α)
  | panicked
deriving DecidableEq, Repr

/-- network_utils::check_port_available: a local bind succeeds iff the
environment says the port is currently free. -/
def check_port_available (avail : Nat → Bool) (port : Nat) : Bool := avail port

/-- The inclusive for-loop of find_available_port: try `n` consecutive
ports starting at `p`, first available wins. -/
def scanPorts (avail : Nat → Bool) : Nat → Nat → Option Nat
  | _, 0 => none
  | p, n + 1 =>
    if check_port_available avail p then some p else scanPorts avail (p + 1) n

/-- network_utils::find_available_port: panics (debug build) when
start_port + 100 overflows u16, otherwise scans the 101 ports
start_port..=start_port+100 in increasing order. -/
def find_available_port (avail : Nat → Bool) (start_port : Nat) : U16RunResult (Option Nat) :=
  if start_port + 100 < 65536 then U16RunResult.ok (scanPorts avail start_port 101)
  else U16RunResult.panicked

/-! ## Connection registry (commands.rs)

AppState.clients is a HashMap from connection id to a shared client,
modelled as an association list with HashMap lookup semantics.  Clients
are identified by opaque handles.  Each operation also returns the list
of close/disconnect operations it performs on stored clients; the source
performs none (insert replaces the old Arc and remove drops the map's
reference), so that list is always empty. -/

def regGet : List (String × Nat) → String → Option Nat
  | [], _ => none
  | p :: rest, id => if p.1 = id then some p.2 else regGet rest id

def regErase (m : List (String × Nat)) (id : String) : List (String × Nat) :=
  m.filter (fun p => decide (p.1 ≠ id))

/-- connect_to_android's final step: clients.write().insert(id, client),
replacing any previous entry for the id without touching the old client. -/
def clientsInsert (m : List (String × Nat)) (id : String) (c : Nat) :
    List (String × Nat) × List Nat :=
  ((id, c) :: regErase m id, [])

/-- disconnect_android: clients.write().remove(&id); no operation is
performed on the removed client. -/
def clientsRemove (m : List (String × Nat)) (id : String) :
    List (String × Nat) × List Nat :=
  (regErase m id, [])

/-- The HTTP POST request form of the pairing wire protocol (spec section 6):
request line, Content-Type header, a Content-Length header whose value text
is `clStr`, a blank line, then the body. -/
def httpPostRequest (clStr body : List Char) : List Char :=
  ("POST /pair HTTP/1.1\r\n").toList
  ++ (("Content-Type: application/json\r\n").toList
  ++ ((("Content-Length: ".toList) ++ (clStr ++ ("\r\n").toList))
  ++ (("\r\n").toList
  ++ body)))

/-! ## Stream and trimming lemmas -/

theorem readLine_line (l r : List Char) (h : '\n' ∉ l) :
    readLine (l ++ '\n' :: r) = (l ++ ['\n'], r) := by
  induction l with
  | nil => simp [readLine]
  | cons c t ih =>
    have hc : c ≠ '\n' := fun hx => h (by simp [hx])
    have ht : '\n' ∉ t := fun hx => h (List.mem_cons_of_mem _ hx)
    simp [readLine, hc, ih ht]

theorem readLine_concat (l rest : List Char) (h : '\n' ∉ l) :
    readLine ((l ++ ['\n']) ++ rest) = (l ++ ['\n'], rest) := by
  rw [List.append_assoc]
  exact readLine_line l rest h

theorem readLine_rest_length (l : List Char) (h : l ≠ []) :
    (readLine l).2.length < l.length := by
  induction l with
  | nil => exact absurd rfl h
  | cons c t ih =>
    by_cases hc : c = '\n'
    · simp [readLine, hc]
    · cases t with
      | nil => simp [readLine, hc]
      | cons d u =>
        have hlt := ih (by simp)
        simp only [readLine, if_neg hc]
        exact Nat.lt_succ_of_lt hlt

theorem trimLeft_cons_of_ws (c : Char) (l : List Char) (h : isWs c = true) :
    trimLeft (c :: l) = trimLeft l := by
  simp [trimLeft, List.dropWhile, h]

theorem trimLeft_cons_of_not (c : Char) (l : List Char) (h : isWs c = false) :
    trimLeft (c :: l) = c :: l := by
  simp [trimLeft, List.dropWhile, h]

theorem trimRight_append_ws (l : List Char) (c : Char) (h : isWs c = true) :
    trimRight (l ++ [c]) = trimRight l := by
  simp [trimRight, List.dropWhile, h]

theorem rustTrim_cons_ws (c : Char) (l : List Char) (h : isWs c = true) :
    rustTrim (c :: l) = rustTrim l := by
  simp [rustTrim, trimLeft_cons_of_ws c l h]

theorem rustTrim_append_ws (l : List Char) (c : Char) (h : isWs c = true) :
    rustTrim (l ++ [c]) = rustTrim l := by
  unfold rustTrim
  rcases hE : trimLeft l with _ | ⟨d, t⟩
  · have h2 : trimLeft (l ++ [c]) = [] := by
      unfold trimLeft at *
      rw [List.dropWhile_append, hE]
      simp [List.dropWhile, h]
    rw [h2]
  · have h2 : trimLeft (l ++ [c]) = (d :: t) ++ [c] := by
      unfold trimLeft at *
      rw [List.dropWhile_append, hE]
      simp
    rw [h2]
    exact trimRight_append_ws (d :: t) c h

theorem rustTrim_ne_nil (c : Char) (l : List Char) (h : isWs c = false) :
    rustTrim (c :: l) ≠ [] := by
  unfold rustTrim
  rw [trimLeft_cons_of_not c l h]
  unfold trimRight
  intro hx
  rw [List.reverse_eq_nil_iff, List.dropWhile_eq_nil_iff] at hx
  have := hx c (by simp)
  rw [h] at this
  exact Bool.noConfusion this

/-! ## starts_with and split lemmas -/

theorem startsWith_append_nl (p s : List Char) (hp : '\n' ∉ p)
    (h : startsWithL p s = false) : startsWithL p (s ++ ['\n']) = false := by
  unfold startsWithL at *
  rw [decide_eq_false_iff_not] at h
  rw [decide_eq_false_iff_not]
  intro hx
  by_cases hl : p.length ≤ s.length
  · rw [List.take_append_of_le_length hl] at hx
    exact h hx
  · have hlen : s.length < p.length := Nat.lt_of_not_le hl
    have hall : (s ++ ['\n']).take p.length = s ++ ['\n'] := by
      apply List.take_of_length_le
      simp
      omega
    rw [hall] at hx
    apply hp
    rw [← hx]
    simp

theorem startsWith_slash_of_pair (x : List Char)
    (h : startsWithL ("POST /pair".toList) x = true) :
    startsWithL ("POST /".toList) x = true := by
  unfold startsWithL at *
  rw [decide_eq_true_iff] at h
  rw [decide_eq_true_iff]
  calc x.take (("POST /".toList).length)
      = (x.take (("POST /pair".toList).length)).take (("POST /".toList).length) := by
        rw [List.take_take]
        congr 1
    _ = ("POST /pair".toList).take (("POST /".toList).length) := by rw [h]
    _ = "POST /".toList := by decide

theorem splitOnColon_no (l : List Char) (h : ':' ∉ l) : splitOnColon l = [l] := by
  induction l with
  | nil => rfl
  | cons c t ih =>
    have hc : c ≠ ':' := fun hx => h (by simp [hx])
    have ht : ':' ∉ t := fun hx => h (List.mem_cons_of_mem _ hx)
    simp [splitOnColon, hc, ih ht]

theorem splitOnColon_append (a b : List Char) (h : ':' ∉ a) :
    splitOnColon (a ++ ':' :: b) = a :: splitOnColon b := by
  induction a with
  | nil => simp [splitOnColon]
  | cons c t ih =>
    have hc : c ≠ ':' := fun hx => h (by simp [hx])
    have ht : ':' ∉ t := fun hx => h (List.mem_cons_of_mem _ hx)
    simp [splitOnColon, hc, ih ht]

/-! ## Parser lemmas -/

theorem parse_ne_nil (s : List Char) (pd : PairingData)
    (h : parsePairingData s = some pd) : s ≠ [] := by
  intro hx
  subst hx
  simp [parsePairingData, skipWs] at h

theorem parse_skip_head (s : List Char) (pd : PairingData)
    (h : parsePairingData s = some pd) : ∃ r, skipWs s = '\x7b' :: r := by
  unfold parsePairingData at h
  split at h
  next r0 heq => exact ⟨r0, heq⟩
  next => simp at h

theorem parse_not_post (s : List Char) (pd : PairingData)
    (h : parsePairingData s = some pd) :
    startsWithL ("POST /".toList) s = false := by
  by_contra hx
  rw [Bool.not_eq_false] at hx
  unfold startsWithL at hx
  rw [decide_eq_true_iff] at hx
  have hs : s = ("POST /".toList) ++ s.drop (("POST /".toList).length) := by
    conv_lhs => rw [← List.take_append_drop (("POST /".toList).length) s]
    rw [hx]
  obtain ⟨r, hr⟩ := parse_skip_head s pd h
  rw [hs] at hr
  have hsk : skipWs (("POST /".toList) ++ s.drop (("POST /".toList).length)) =
      'P' :: (("OST /".toList) ++ s.drop (("POST /".toList).length)) := by
    show skipWs ('P' :: (("OST /".toList) ++ s.drop (("POST /".toList).length))) = _
    simp [skipWs, List.dropWhile, show isWs 'P' = false from by decide]
  rw [hsk] at hr
  have : 'P' = '\x7b' := by
    injection hr
  exact absurd this (by decide)

/-! ## Header loop lemmas -/

theorem readHeadersAux_fuel (f1 : Nat) :
    ∀ (f2 cl : Nat) (input : List Char), input.length < f1 → input.length < f2 →
      readHeadersAux f1 cl input = readHeadersAux f2 cl input := by
  induction f1 with
  | zero => intro f2 cl input h1 _; omega
  | succ f ih =>
    intro f2 cl input h1 h2
    cases f2 with
    | zero => omega
    | succ g =>
      simp only [readHeadersAux]
      by_cases hg : (rustTrim (readLine input).1).isEmpty = true
      · simp [hg]
      · rw [Bool.not_eq_true] at hg
        simp only [hg, Bool.false_eq_true, if_false]
        have hne : input ≠ [] := by
          intro hx
          subst hx
          simp [readLine, rustTrim, trimLeft, trimRight] at hg
        have hlt := readLine_rest_length input hne
        exact ih g _ _ (by omega) (by omega)

theorem readHeaders_blank (cl : Nat) (input : List Char)
    (h : (rustTrim (readLine input).1).isEmpty = true) :
    readHeaders cl input = (cl, (readLine input).2) := by
  unfold readHeaders
  simp only [readHeadersAux]
  simp [h]

theorem readHeaders_cont (cl : Nat) (input : List Char)
    (h : (rustTrim (readLine input).1).isEmpty = false) :
    readHeaders cl input =
      readHeaders (headerUpdateCL cl (readLine input).1) (readLine input).2 := by
  have hne : input ≠ [] := by
    intro hx
    subst hx
    simp [readLine, rustTrim, trimLeft, trimRight] at h
  have hlt := readLine_rest_length input hne
  show readHeadersAux (input.length + 1) cl input = _
  simp only [readHeadersAux]
  simp only [h, Bool.false_eq_true, if_false]
  exact readHeadersAux_fuel input.length _ _ _ (by omega) (by omega)

/-! ## Accept loop lemmas -/

theorem waitLoop_skip (t : Nat) (pre rest : List IterObs)
    (h : ∀ p ∈ pre, p.elapsedMs ≤ t ∧ p.running = true ∧ p.accept = AcceptOutcome.wouldBlock) :
    waitLoop t (pre ++ rest) = waitLoop t rest := by
  induction pre with
  | nil => rfl
  | cons o os ih =>
    obtain ⟨h1, h2, h3⟩ := h o (by simp)
    have hnt : ¬ (o.elapsedMs > t) := by omega
    rw [List.cons_append]
    rw [show waitLoop t (o :: (os ++ rest)) =
        (if o.elapsedMs > t then some (Except.error ("Timeout waiting for pairing"), false)
         else if o.running = false then some (Except.error ("Server stopped"), false)
         else match o.accept with
           | AcceptOutcome.conn ok input =>
             if ok then some ((handle_pairing_client input).1, false)
             else some (Except.error ("Failed to set stream blocking"), true)
           | AcceptOutcome.wouldBlock => waitLoop t (os ++ rest)
           | AcceptOutcome.acceptErr => some (Except.error ("Accept error"), false)) from rfl]
    rw [if_neg hnt, if_neg (by rw [h2]; exact fun hc => Bool.noConfusion hc), h3]
    exact ih (fun p hp => h p (by simp [hp]))

theorem waitLoop_replicate (t k : Nat) (rest : List IterObs) :
    waitLoop t (List.replicate k idleObs ++ rest) = waitLoop t rest := by
  apply waitLoop_skip
  intro p hp
  rw [List.eq_of_mem_replicate hp]
  exact ⟨Nat.zero_le t, rfl, rfl⟩

theorem waitLoop_conn (t : Nat) (input : List Char) (rest : List IterObs) :
    waitLoop t (IterObs.mk 0 true (AcceptOutcome.conn true input) :: rest) =
      some ((handle_pairing_client input).1, false) := by
  simp [waitLoop]

/-! ## Handler lemmas -/

theorem isEmpty_false_of_ne_nil (l : List Char) (h : l ≠ []) : l.isEmpty = false := by
  cases l with
  | nil => exact absurd rfl h
  | cons a t => rfl

theorem readHeaders_cont2 (cl : Nat) (input line rest : List Char)
    (hE : readLine input = (line, rest))
    (h : (rustTrim line).isEmpty = false) :
    readHeaders cl input = readHeaders (headerUpdateCL cl line) rest := by
  have hgen := readHeaders_cont cl input (by rw [hE]; exact h)
  rw [hE] at hgen
  exact hgen

theorem readHeaders_blank2 (cl : Nat) (input line rest : List Char)
    (hE : readLine input = (line, rest))
    (h : (rustTrim line).isEmpty = true) :
    readHeaders cl input = (cl, rest) := by
  have hgen := readHeaders_blank cl input (by rw [hE]; exact h)
  rw [hE] at hgen
  exact hgen

theorem readExact_exact (l : List Char) : readExact l.length l = some (l, []) := by
  simp [readExact]

theorem isCL_true (X : List Char) :
    isContentLengthLine (("Content-Length: ".toList) ++ X) = true := by
  unfold isContentLengthLine lowerLine startsWithL
  rw [List.map_append]
  rw [decide_eq_true_iff]
  rw [List.take_append_of_le_length (by decide)]
  decide

theorem headerUpdate_cl (cl : Nat) (clStr : List Char) (n : Nat)
    (hc1 : rustTrim clStr = clStr) (hc2 : ':' ∉ clStr)
    (hc4 : parseUsize clStr = some n) :
    headerUpdateCL cl ((("Content-Length: ".toList) ++ (clStr ++ ['\r'])) ++ ['\n']) = n := by
  have hline : ((("Content-Length: ".toList) ++ (clStr ++ ['\r'])) ++ ['\n']) =
      ("Content-Length: ".toList) ++ (clStr ++ ['\r', '\n']) := by
    simp
  rw [hline]
  unfold headerUpdateCL
  rw [isCL_true]
  rw [if_pos rfl]
  have hsplit : ("Content-Length: ".toList) ++ (clStr ++ ['\r', '\n']) =
      ("Content-Length".toList) ++ ':' :: (' ' :: (clStr ++ ['\r', '\n'])) := by
    rw [show ("Content-Length: ".toList) = ("Content-Length".toList) ++ [':', ' '] from by decide]
    simp
  have hnc : ':' ∉ (' ' :: (clStr ++ ['\r', '\n'])) := by
    intro hm
    rcases List.mem_cons.mp hm with h' | h'
    · exact absurd h' (by decide)
    · rcases List.mem_append.mp h' with h'' | h''
      · exact hc2 h''
      · exact absurd h'' (by decide)
  rw [hsplit, splitOnColon_append _ _ (by decide)]
  rw [splitOnColon_no (' ' :: (clStr ++ ['\r', '\n'])) hnc]
  simp only [List.get?]
  rw [rustTrim_cons_ws ' ' _ (by decide)]
  rw [show clStr ++ ['\r', '\n'] = (clStr ++ ['\r']) ++ ['\n'] from by simp]
  rw [rustTrim_append_ws _ '\n' (by decide), rustTrim_append_ws _ '\r' (by decide), hc1, hc4]
  rfl

theorem handle_raw (s : List Char) (pd : PairingData)
    (h1 : parsePairingData s = some pd) (h2 : rustTrim s = s) (h3 : '\n' ∉ s) :
    handle_pairing_client (s ++ ['\n']) = (Except.ok pd, successJson ++ ['\n']) := by
  have hrl : readLine (s ++ ['\n']) = (s ++ ['\n'], []) := readLine_line s [] h3
  have hp6 : startsWithL ("POST /".toList) (s ++ ['\n']) = false :=
    startsWith_append_nl _ _ (by decide) (parse_not_post s pd h1)
  have hp10 : startsWithL ("POST /pair".toList) (s ++ ['\n']) = false := by
    cases hE : startsWithL ("POST /pair".toList) (s ++ ['\n'])
    · rfl
    · have hcontra := startsWith_slash_of_pair _ hE
      rw [hp6] at hcontra
      exact Bool.noConfusion hcontra
  simp only [handle_pairing_client, hrl]
  simp only [hp10, hp6, Bool.or_self, Bool.false_eq_true, if_false]
  rw [rustTrim_append_ws s '\n' (by decide), h2, h1]

theorem handle_http (clStr s : List Char) (pd : PairingData)
    (h1 : parsePairingData s = some pd)
    (hc1 : rustTrim clStr = clStr) (hc2 : ':' ∉ clStr) (hc3 : '\n' ∉ clStr)
    (hc4 : parseUsize clStr = some s.length) :
    handle_pairing_client (httpPostRequest clStr s) = (Except.ok pd, http200Response) := by
  have hr1 : readLine (httpPostRequest clStr s) =
      (("POST /pair HTTP/1.1\r\n").toList,
       ("Content-Type: application/json\r\n").toList
         ++ ((("Content-Length: ".toList) ++ (clStr ++ ("\r\n").toList))
         ++ (("\r\n").toList ++ s))) :=
    readLine_concat (("POST /pair HTTP/1.1\r").toList) _ (by decide)
  have hr2 : readLine (("Content-Type: application/json\r\n").toList
      ++ ((("Content-Length: ".toList) ++ (clStr ++ ("\r\n").toList))
      ++ (("\r\n").toList ++ s))) =
      (("Content-Type: application/json\r\n").toList,
       (("Content-Length: ".toList) ++ (clStr ++ ("\r\n").toList)) ++ (("\r\n").toList ++ s)) :=
    readLine_concat (("Content-Type: application/json\r").toList) _ (by decide)
  have hsh3 : (("Content-Length: ".toList) ++ (clStr ++ ("\r\n").toList)) ++ (("\r\n").toList ++ s)
      = ((("Content-Length: ".toList) ++ (clStr ++ ['\r'])) ++ ['\n']) ++ (("\r\n").toList ++ s) := by
    simp
  have hnl3 : '\n' ∉ (("Content-Length: ".toList) ++ (clStr ++ ['\r'])) := by
    intro hm
    rcases List.mem_append.mp hm with h' | h'
    · exact absurd h' (by decide)
    · rcases List.mem_append.mp h' with h'' | h''
      · exact hc3 h''
      · exact absurd h'' (by decide)
  have hr3 : readLine ((("Content-Length: ".toList) ++ (clStr ++ ("\r\n").toList))
        ++ (("\r\n").toList ++ s)) =
      (((("Content-Length: ".toList) ++ (clStr ++ ['\r'])) ++ ['\n']), ("\r\n").toList ++ s) := by
    rw [hsh3]
    exact readLine_concat _ _ hnl3
  have hr4 : readLine (("\r\n").toList ++ s) = (("\r\n").toList, s) :=
    readLine_concat (['\r']) _ (by decide)
  have guard3 : (rustTrim ((("Content-Length: ".toList) ++ (clStr ++ ['\r'])) ++ ['\n'])).isEmpty
      = false :=
    isEmpty_false_of_ne_nil _ (rustTrim_ne_nil 'C'
      ((("ontent-Length: ".toList) ++ (clStr ++ ['\r'])) ++ ['\n']) (by decide))
  have hH : readHeaders 0 (("Content-Type: application/json\r\n").toList
      ++ ((("Content-Length: ".toList) ++ (clStr ++ ("\r\n").toList))
      ++ (("\r\n").toList ++ s))) = (s.length, s) := by
    rw [readHeaders_cont2 _ _ _ _ hr2 (by decide)]
    rw [show headerUpdateCL 0 (("Content-Type: application/json\r\n").toList) = 0 from by decide]
    rw [readHeaders_cont2 _ _ _ _ hr3 guard3]
    rw [headerUpdate_cl 0 clStr s.length hc1 hc2 hc4]
    rw [readHeaders_blank2 _ _ _ _ hr4 (by decide)]
  have hlen : s.length ≠ 0 := by
    have := parse_ne_nil s pd h1
    intro hx
    exact this (List.length_eq_zero.mp hx)
  simp only [handle_pairing_client, hr1]
  rw [show startsWithL (("POST /pair").toList) (("POST /pair HTTP/1.1\r\n").toList) = true
      from by decide]
  simp only [Bool.true_or, if_true]
  simp only [handle_http_post, hH]
  rw [if_neg hlen]
  rw [readExact_exact s]
  simp only [h1]

/-! ## Port-scan and registry lemmas -/

theorem scanPorts_some_iff (avail : Nat → Bool) :
    ∀ (n p q : Nat), scanPorts avail p n = some q ↔
      (p ≤ q ∧ q < p + n ∧ avail q = true ∧ ∀ r, p ≤ r → r < q → avail r = false) := by
  intro n
  induction n with
  | zero =>
    intro p q
    constructor
    · intro h
      exact absurd h (by simp [scanPorts])
    · intro h
      omega
  | succ m ih =>
    intro p q
    unfold scanPorts check_port_available
    by_cases hp : avail p = true
    · rw [hp, if_pos rfl]
      constructor
      · intro h
        have hq : p = q := Option.some.inj h
        subst hq
        exact ⟨Nat.le_refl _, by omega, hp, fun r hr1 hr2 => by omega⟩
      · rintro ⟨hq1, _, _, hq4⟩
        rcases Nat.eq_or_lt_of_le hq1 with he | he
        · rw [he]
        · have := hq4 p (Nat.le_refl _) he
          rw [hp] at this
          exact Bool.noConfusion this
    · rw [Bool.not_eq_true] at hp
      rw [hp]
      simp only [Bool.false_eq_true, if_false]
      rw [ih (p + 1) q]
      constructor
      · rintro ⟨ha, hb, hc, hd⟩
        refine ⟨by omega, by omega, hc, ?_⟩
        intro r hr1 hr2
        rcases Nat.eq_or_lt_of_le hr1 with he | he
        · rw [← he]
          exact hp
        · exact hd r (by omega) hr2
      · rintro ⟨ha, hb, hc, hd⟩
        have hpq : p ≠ q := by
          intro he
          rw [← he] at hc
          rw [hp] at hc
          exact Bool.noConfusion hc
        exact ⟨by omega, by omega, hc, fun r hr1 hr2 => hd r (by omega) hr2⟩

theorem scanPorts_none_iff (avail : Nat → Bool) :
    ∀ (n p : Nat), scanPorts avail p n = none ↔
      ∀ r, p ≤ r → r < p + n → avail r = false := by
  intro n
  induction n with
  | zero =>
    intro p
    constructor
    · intro _ r h1 h2
      omega
    · intro _
      rfl
  | succ m ih =>
    intro p
    unfold scanPorts check_port_available
    by_cases hp : avail p = true
    · rw [hp, if_pos rfl]
      constructor
      · intro h
        exact Option.noConfusion h
      · intro h
        have := h p (Nat.le_refl _) (by omega)
        rw [hp] at this
        exact Bool.noConfusion this
    · rw [Bool.not_eq_true] at hp
      rw [hp]
      simp only [Bool.false_eq_true, if_false]
      rw [ih (p + 1)]
      constructor
      · intro h r h1 h2
        rcases Nat.eq_or_lt_of_le h1 with he | he
        · rw [← he]
          exact hp
        · exact h r (by omega) (by omega)
      · intro h r h1 h2
        exact h r (by omega) (by omega)

theorem regGet_erase (m : List (String × Nat)) (id : String) :
    regGet (regErase m id) id = none := by
  induction m with
  | nil => rfl
  | cons p rest ih =>
    unfold regErase at ih ⊢
    rw [List.filter_cons]
    by_cases hp : p.1 = id
    · rw [if_neg (by simp [hp])]
      exact ih
    · rw [if_pos (by simp [hp])]
      unfold regGet
      rw [if_neg hp]
      exact ih

/-! ## Claim theorems -/

/-- Claim C4 counterexample: stop() on a server with a live listening
socket leaves the listener field in place — the socket is not released by
stop() itself, contrary to the claim. -/
theorem C4_counterexample :
    (TempServer.stop (TempServerState.mk true 18080 true false)).listenerSome = true := rfl

/-- Claim C4 (amended): stop() only sets the shared running flag to
false and leaves the listening socket exactly as it was; the socket is
released only when the TempServer value is dropped (Drop clears the
running flag and the listener). -/
theorem C4_amended_stop_keeps_socket (s : TempServerState) :
    (TempServer.stop s).running = false ∧
    (TempServer.stop s).listenerSome = s.listenerSome ∧
    (TempServer.stop s).port = s.port ∧
    (TempServer.dropServer s).listenerSome = false ∧
    (TempServer.dropServer s).running = false :=
  ⟨rfl, rfl, rfl, rfl, rfl⟩

/-- Claim C5: when the first AuthResponse has pending = true,
request_token performs exactly one additional blocking read (two reads
in total); if the second response has rejected = true the call fails
with the rejection error, and otherwise a token carried by the second
response is returned. -/
theorem C5_pending_second_read (r r2 : AuthResponse) (rest : List AuthResponse)
    (hp : r.pending = some true) :
    (request_token (r :: r2 :: rest)).2 = 2 ∧
    (r2.rejected = some true →
      (request_token (r :: r2 :: rest)).1 = Except.error ("Authorization rejected by user")) ∧
    (∀ tk, r2.rejected.getD false = false → r2.token = some tk →
      (request_token (r :: r2 :: rest)).1 = Except.ok tk) := by
  simp only [request_token]
  rw [hp]
  refine ⟨rfl, ?_, ?_⟩
  · intro hrj
    rw [hrj]
    rfl
  · intro tk hrj htk
    rw [if_pos (show (Option.getD (some true) false) = true from rfl)]
    rw [if_neg (show ¬ ((r2.rejected.getD false) = true) from by
      rw [hrj]
      exact fun hx => Bool.noConfusion hx)]
    rw [htk]

/-- Claim C5 witness: the spec scenario — a pending first response
followed by a token-carrying second response. -/
theorem C5_pending_second_read_witness :
    ((AuthResponse.mk true none none none (some "r1") (some true)).pending = some true) ∧
    ((request_token ((AuthResponse.mk true none none none (some "r1") (some true)) ::
        (AuthResponse.mk true none (some "T") (some false) none none) :: [])).2 = 2 ∧
     ((AuthResponse.mk true none (some "T") (some false) none none).rejected = some true →
      (request_token ((AuthResponse.mk true none none none (some "r1") (some true)) ::
        (AuthResponse.mk true none (some "T") (some false) none none) :: [])).1 =
        Except.error ("Authorization rejected by user")) ∧
     (∀ tk, (AuthResponse.mk true none (some "T") (some false) none none).rejected.getD false
          = false →
      (AuthResponse.mk true none (some "T") (some false) none none).token = some tk →
      (request_token ((AuthResponse.mk true none none none (some "r1") (some true)) ::
        (AuthResponse.mk true none (some "T") (some false) none none) :: [])).1 =
        Except.ok tk)) :=
  ⟨rfl, C5_pending_second_read _ _ [] rfl⟩

/-- Claim C7: inserting A under an id, then B under the same id, then
removing the id leaves no entry for the id; the intermediate states have
the expected entries, and neither the replacing insert nor the remove
performs any close or other operation on stored clients (the recorded
operation trace of each step is empty), so a reference to the displaced
client A stays independently usable. -/
theorem C7_registry_replace_remove (m : List (String × Nat)) (id : String) (A B : Nat) :
    regGet (clientsRemove (clientsInsert (clientsInsert m id A).1 id B).1 id).1 id = none ∧
    regGet (clientsInsert m id A).1 id = some A ∧
    regGet (clientsInsert (clientsInsert m id A).1 id B).1 id = some B ∧
    (clientsInsert (clientsInsert m id A).1 id B).2 = [] ∧
    (clientsRemove (clientsInsert (clientsInsert m id A).1 id B).1 id).2 = [] := by
  refine ⟨?_, ?_, ?_, rfl, rfl⟩
  · exact regGet_erase _ id
  · unfold clientsInsert regGet
    rw [if_pos rfl]
  · unfold clientsInsert regGet
    rw [if_pos rfl]

/-- Claim C8 counterexample: at start port 65436 (a valid u16) the
function panics on the overflowing u16 addition start+100 instead of
scanning; with every port available it does not return the first
available port 65436 as the claim requires. -/
theorem C8_counterexample :
    find_available_port (fun _ => true) 65436 = U16RunResult.panicked ∧
    find_available_port (fun _ => true) 65436 ≠ U16RunResult.ok (some 65436) := by
  constructor
  · rfl
  · intro h
    exact U16RunResult.noConfusion h

/-- Claim C8 (amended): for every start port at most 65435 — the
precondition under which start+100 does not overflow u16 —
find_available_port scans the ports start..start+100 in increasing order
and returns the first currently bindable one, and returns none iff every
port of the range is unavailable. -/
theorem C8_amended_scan (avail : Nat → Bool) (start : Nat) (h : start ≤ 65435) :
    (∀ q, find_available_port avail start = U16RunResult.ok (some q) ↔
       (start ≤ q ∧ q ≤ start + 100 ∧ avail q = true ∧
        ∀ r, start ≤ r → r < q → avail r = false)) ∧
    (find_available_port avail start = U16RunResult.ok none ↔
       ∀ r, start ≤ r → r ≤ start + 100 → avail r = false) := by
  have hok : find_available_port avail start = U16RunResult.ok (scanPorts avail start 101) := by
    unfold find_available_port
    rw [if_pos (by omega)]
  constructor
  · intro q
    rw [hok]
    constructor
    · intro hq
      have hs : scanPorts avail start 101 = some q := by
        injection hq
      rw [scanPorts_some_iff avail 101 start q] at hs
      obtain ⟨a, b, c, d⟩ := hs
      exact ⟨a, by omega, c, d⟩
    · rintro ⟨a, b, c, d⟩
      have hs : scanPorts avail start 101 = some q := by
        rw [scanPorts_some_iff avail 101 start q]
        exact ⟨a, by omega, c, d⟩
      rw [hs]
  · rw [hok]
    constructor
    · intro hq
      have hs : scanPorts avail start 101 = none := by
        injection hq
      rw [scanPorts_none_iff avail 101 start] at hs
      intro r h1 h2
      exact hs r h1 (by omega)
    · intro hall
      have hs : scanPorts avail start 101 = none := by
        rw [scanPorts_none_iff avail 101 start]
        intro r h1 h2
        exact hall r h1 (by omega)
      rw [hs]

/-- Claim C8 witness: the amended scan property instantiated at start
port 8080 with every port available. -/
theorem C8_amended_scan_witness :
    (8080 ≤ 65435) ∧
    ((∀ q, find_available_port (fun _ => true) 8080 = U16RunResult.ok (some q) ↔
       (8080 ≤ q ∧ q ≤ 8080 + 100 ∧ (fun _ => true) q = true ∧
        ∀ r, 8080 ≤ r → r < q → (fun _ => true) r = false)) ∧
     (find_available_port (fun _ => true) 8080 = U16RunResult.ok none ↔
       ∀ r, 8080 ≤ r → r ≤ 8080 + 100 → (fun _ => true) r = false)) :=
  ⟨by omega, C8_amended_scan (fun _ => true) 8080 (by omega)⟩

/-- Claim C9: within the u16 domain, find_available_port panics (debug
overflow of start+100) exactly when start_port exceeds 65435, and under
the unstated precondition start_port ≤ 65435 it is total and returns the
scan result. -/
theorem C9_u16_overflow (avail : Nat → Bool) (start : Nat) (h : start < 65536) :
    (find_available_port avail start = U16RunResult.panicked ↔ 65435 < start) ∧
    (start ≤ 65435 → find_available_port avail start =
      U16RunResult.ok (scanPorts avail start 101)) := by
  unfold find_available_port
  constructor
  · by_cases hlt : start + 100 < 65536
    · rw [if_pos hlt]
      constructor
      · intro hx
        exact U16RunResult.noConfusion hx
      · intro hx
        omega
    · rw [if_neg hlt]
      constructor
      · intro _
        omega
      · intro _
        rfl
  · intro hle
    rw [if_pos (by omega)]

/-- Claim C9 witness: the overflow boundary instantiated at start port
65436. -/
theorem C9_u16_overflow_witness :
    (65436 < 65536) ∧
    ((find_available_port (fun _ => false) 65436 = U16RunResult.panicked ↔ 65435 < 65436) ∧
     (65436 ≤ 65435 → find_available_port (fun _ => false) 65436 =
       U16RunResult.ok (scanPorts (fun _ => false) 65436 101))) :=
  ⟨by omega, C9_u16_overflow (fun _ => false) 65436 (by omega)⟩

/-- Claim C10: when the first AuthResponse is not pending and carries a
token, request_token returns that token after a single read, regardless
of the rejected and success fields of that response. -/
theorem C10_nonpending_token_wins (r : AuthResponse) (rest : List AuthResponse) (tk : String)
    (hp : r.pending.getD false = false) (ht : r.token = some tk) :
    request_token (r :: rest) = (Except.ok tk, 1) := by
  simp only [request_token]
  simp only [hp, Bool.false_eq_true, if_false, ht]

/-- Claim C10 witness: a first response with success = false and
rejected = true that still carries a token is accepted. -/
theorem C10_nonpending_token_wins_witness :
    ((AuthResponse.mk false (some "m") (some "T") (some true) none none).pending.getD false
      = false) ∧
    ((AuthResponse.mk false (some "m") (some "T") (some true) none none).token = some "T") ∧
    request_token [AuthResponse.mk false (some "m") (some "T") (some true) none none] =
      (Except.ok "T", 1) :=
  ⟨rfl, rfl, C10_nonpending_token_wins _ [] "T" rfl rfl⟩

/-- Claim C2 counterexample: a run whose first iteration accepts a
connection but whose switch of the accepted stream to blocking mode
fails returns an error from the accept loop while the
waiting_for_pairing flag is still true — the ? operator on
set_nonblocking propagates the error before the flag is reset — so a
status query after completion observes waiting_for_pairing = true even
though a connection was accepted. -/
theorem C2_counterexample :
    wait_for_pairing true 5000 [IterObs.mk 0 true (AcceptOutcome.conn false [])] =
      some (Except.error ("Failed to set stream blocking"), true) := rfl

/-- Claim C2 (amended): for every run of the accept loop in which every
accepted connection's switch to blocking mode succeeds, whenever the
loop returns — with a PairingResult or with any error — the
waiting_for_pairing flag is false. -/
theorem C2_amended_flag_reset (t : Nat) (sched : List IterObs)
    (h : ∀ o ∈ sched, connOk o.accept = true)
    (res : Except String PairingData) (w : Bool)
    (hret : waitLoop t sched = some (res, w)) :
    w = false := by
  induction sched with
  | nil => exact Option.noConfusion hret
  | cons o rest ih =>
    simp only [waitLoop] at hret
    split at hret
    · have hw := congrArg Prod.snd (Option.some.inj hret)
      exact hw.symm
    · split at hret
      · have hw := congrArg Prod.snd (Option.some.inj hret)
        exact hw.symm
      · split at hret
        next ok input heq =>
          have hock : connOk o.accept = true := h o (by simp)
          rw [heq] at hock
          have hok : ok = true := hock
          rw [hok, if_pos rfl] at hret
          have hw := congrArg Prod.snd (Option.some.inj hret)
          exact hw.symm
        next heq =>
          exact ih (fun p hp => h p (by simp [hp])) hret
        next heq =>
          have hw := congrArg Prod.snd (Option.some.inj hret)
          exact hw.symm

/-- Claim C2 witness: a run with one successfully accepted connection,
returning with the flag false. -/
theorem C2_amended_flag_reset_witness :
    ((∀ o ∈ [IterObs.mk 0 true (AcceptOutcome.conn true [])], connOk o.accept = true) ∧
     waitLoop 5000 [IterObs.mk 0 true (AcceptOutcome.conn true [])] =
       some (Except.error ("Failed to parse pairing data"), false)) ∧
    false = false :=
  ⟨⟨by decide, rfl⟩,
   C2_amended_flag_reset 5000 [IterObs.mk 0 true (AcceptOutcome.conn true [])] (by decide)
     (Except.error ("Failed to parse pairing data")) false rfl⟩

/-- Claim C3: while the accept loop has been idling (running, within the
timeout, no pending connection), the first iteration that observes the
stop flag cleared — still within the timeout budget — returns
Error("Server stopped") at that very iteration, i.e. within one poll
interval (about 100 ms) of stop() setting the flag. -/
theorem C3_stop_within_poll (t : Nat) (before : List IterObs) (o : IterObs)
    (rest : List IterObs)
    (hidle : ∀ p ∈ before, p.elapsedMs ≤ t ∧ p.running = true ∧
      p.accept = AcceptOutcome.wouldBlock)
    (hel : o.elapsedMs ≤ t) (hstop : o.running = false) :
    waitLoop t (before ++ o :: rest) = some (Except.error ("Server stopped"), false) := by
  rw [waitLoop_skip t before (o :: rest) hidle]
  simp only [waitLoop]
  rw [if_neg (by omega), if_pos hstop]

/-- Claim C3 witness: one idle poll, then the stop flag is observed. -/
theorem C3_stop_within_poll_witness :
    ((∀ p ∈ [idleObs], p.elapsedMs ≤ 5 ∧ p.running = true ∧
        p.accept = AcceptOutcome.wouldBlock) ∧
     (IterObs.mk 3 false AcceptOutcome.wouldBlock).elapsedMs ≤ 5 ∧
     (IterObs.mk 3 false AcceptOutcome.wouldBlock).running = false) ∧
    waitLoop 5 ([idleObs] ++ (IterObs.mk 3 false AcceptOutcome.wouldBlock) :: []) =
      some (Except.error ("Server stopped"), false) :=
  ⟨⟨by decide, by decide, rfl⟩,
   C3_stop_within_poll 5 [idleObs] (IterObs.mk 3 false AcceptOutcome.wouldBlock) []
     (by decide) (by decide) rfl⟩

/-- Claim C1: for every JSON payload accepted by the pairing-data
parser (a bare single-line payload: no internal newline, no surrounding
whitespace), a single accepted connection makes wait_for_pairing return
exactly the parsed PairingResult with the waiting flag reset — and it
does so identically whether the payload arrives as a newline-terminated
raw line or as the body of an HTTP POST whose Content-Length value text
parses to the body length. -/
theorem C1_protocol_equivalence (t k : Nat) (s clStr : List Char) (pd : PairingData)
    (h1 : parsePairingData s = some pd)
    (h2 : rustTrim s = s) (h3 : '\n' ∉ s)
    (hc1 : rustTrim clStr = clStr) (hc2 : ':' ∉ clStr) (hc3 : '\n' ∉ clStr)
    (hc4 : parseUsize clStr = some s.length) :
    wait_for_pairing true t (List.replicate k idleObs ++
      [IterObs.mk 0 true (AcceptOutcome.conn true (s ++ ['\n']))]) =
      some (Except.ok pd, false) ∧
    wait_for_pairing true t (List.replicate k idleObs ++
      [IterObs.mk 0 true (AcceptOutcome.conn true (httpPostRequest clStr s))]) =
      some (Except.ok pd, false) := by
  constructor
  · unfold wait_for_pairing
    rw [if_pos rfl, waitLoop_replicate, waitLoop_conn]
    rw [handle_raw s pd h1 h2 h3]
  · unfold wait_for_pairing
    rw [if_pos rfl, waitLoop_replicate, waitLoop_conn]
    rw [handle_http clStr s pd h1 hc1 hc2 hc3 hc4]

/-- Claim C1 witness: the spec scenario payload url 10.0.0.5:9000,
token abc123, delivered after two idle polls, in both transports. -/
theorem C1_protocol_equivalence_witness :
    (parsePairingData (("\x7b\"url\":\"10.0.0.5:9000\",\"token\":\"abc123\"\x7d").toList) =
       some (PairingData.mk "10.0.0.5:9000" "abc123") ∧
     rustTrim (("\x7b\"url\":\"10.0.0.5:9000\",\"token\":\"abc123\"\x7d").toList) =
       ("\x7b\"url\":\"10.0.0.5:9000\",\"token\":\"abc123\"\x7d").toList ∧
     '\n' ∉ (("\x7b\"url\":\"10.0.0.5:9000\",\"token\":\"abc123\"\x7d").toList) ∧
     rustTrim (("40").toList) = ("40").toList ∧
     ':' ∉ (("40").toList) ∧
     '\n' ∉ (("40").toList) ∧
     parseUsize (("40").toList) =
       some (("\x7b\"url\":\"10.0.0.5:9000\",\"token\":\"abc123\"\x7d").toList).length) ∧
    (wait_for_pairing true 180000 (List.replicate 2 idleObs ++
      [IterObs.mk 0 true (AcceptOutcome.conn true
        ((("\x7b\"url\":\"10.0.0.5:9000\",\"token\":\"abc123\"\x7d").toList) ++ ['\n']))]) =
      some (Except.ok (PairingData.mk "10.0.0.5:9000" "abc123"), false) ∧
    wait_for_pairing true 180000 (List.replicate 2 idleObs ++
      [IterObs.mk 0 true (AcceptOutcome.conn true
        (httpPostRequest (("40").toList)
          (("\x7b\"url\":\"10.0.0.5:9000\",\"token\":\"abc123\"\x7d").toList)))]) =
      some (Except.ok (PairingData.mk "10.0.0.5:9000" "abc123"), false)) :=
  ⟨⟨by decide, by decide, by decide, by decide, by decide, by decide, by decide⟩,
   C1_protocol_equivalence 180000 2
     (("\x7b\"url\":\"10.0.0.5:9000\",\"token\":\"abc123\"\x7d").toList) (("40").toList)
     (PairingData.mk "10.0.0.5:9000" "abc123")
     (by decide) (by decide) (by decide) (by decide) (by decide) (by decide) (by decide)⟩

/-- Claim C6: in HTTP mode, whenever the header section yields a zero
content length (Content-Length header missing, zero, or unparseable),
handle_pairing_client writes exactly the 400 Bad Request response with
Content-Length: 0 and wait_for_pairing returns an error, never a
PairingResult; the same holds when a body of the declared length is read
but fails JSON parsing. -/
theorem C6_http_bad_request (t k : Nat) (input line rest rest2 : List Char) (cl : Nat)
    (hE : readLine input = (line, rest))
    (hpost : startsWithL ("POST /".toList) line = true)
    (hH : readHeaders 0 rest = (cl, rest2)) :
    (cl = 0 →
      handle_pairing_client input =
        (Except.error ("No content in POST request"), badRequest400) ∧
      wait_for_pairing true t (List.replicate k idleObs ++
        [IterObs.mk 0 true (AcceptOutcome.conn true input)]) =
        some (Except.error ("No content in POST request"), false)) ∧
    (∀ body rem, cl ≠ 0 → readExact cl rest2 = some (body, rem) →
      parsePairingData body = none →
      handle_pairing_client input = (Except.error ("Invalid JSON"), badRequest400) ∧
      wait_for_pairing true t (List.replicate k idleObs ++
        [IterObs.mk 0 true (AcceptOutcome.conn true input)]) =
        some (Except.error ("Invalid JSON"), false)) := by
  have hdisp : ∀ res : Except String PairingData × List Char,
      handle_http_post rest = res → handle_pairing_client input = res := by
    intro res hres
    simp only [handle_pairing_client, hE]
    rw [hpost, Bool.or_true, if_pos rfl]
    exact hres
  have hwait : ∀ e : String,
      handle_pairing_client input = (Except.error e, badRequest400) →
      wait_for_pairing true t (List.replicate k idleObs ++
        [IterObs.mk 0 true (AcceptOutcome.conn true input)]) =
        some (Except.error e, false) := by
    intro e he
    unfold wait_for_pairing
    rw [if_pos rfl, waitLoop_replicate, waitLoop_conn, he]
  constructor
  · intro h0
    have hh : handle_http_post rest =
        (Except.error ("No content in POST request"), badRequest400) := by
      simp only [handle_http_post, hH]
      rw [if_pos h0]
    exact ⟨hdisp _ hh, hwait _ (hdisp _ hh)⟩
  · intro body rem hne hread hparse
    have hh : handle_http_post rest = (Except.error ("Invalid JSON"), badRequest400) := by
      simp only [handle_http_post, hH]
      rw [if_neg hne, hread]
      simp only [hparse]
    exact ⟨hdisp _ hh, hwait _ (hdisp _ hh)⟩

/-- Claim C6 witness: a POST request with no Content-Length header at
all (headers end immediately), rejected with the 400 response. -/
theorem C6_http_bad_request_witness :
    (readLine (("POST /pair HTTP/1.1\r\n\r\n").toList) =
      (("POST /pair HTTP/1.1\r\n").toList, ("\r\n").toList) ∧
     startsWithL ("POST /".toList) (("POST /pair HTTP/1.1\r\n").toList) = true ∧
     readHeaders 0 (("\r\n").toList) = (0, [])) ∧
    (0 = 0 →
      handle_pairing_client (("POST /pair HTTP/1.1\r\n\r\n").toList) =
        (Except.error ("No content in POST request"), badRequest400) ∧
      wait_for_pairing true 180000 (List.replicate 1 idleObs ++
        [IterObs.mk 0 true (AcceptOutcome.conn true (("POST /pair HTTP/1.1\r\n\r\n").toList))]) =
        some (Except.error ("No content in POST request"), false)) :=
  ⟨⟨by decide, by decide, by decide⟩,
   (C6_http_bad_request 180000 1 (("POST /pair HTTP/1.1\r\n\r\n").toList)
     (("POST /pair HTTP/1.1\r\n").toList) (("\r\n").toList) [] 0
     (by decide) (by decide) (by decide)).1⟩
